import Mathlib

/-!
Verification of the Oceanus query-orchestration backend
(`backend-chatbot-test`): a shallow embedding, in Lean 4, of the cyclic
multi-agent orchestrator (`agent/cyclic_multi_agent.py`), the measurement
and semantic agents (`agent/multi_agent_rag.py`), the session manager
(`API/core/session_manager.py`) and the rate-limit middleware
(`API/middleware/rate_limit.py`), together with theorems settling the
behavioural claims about those components.

Modelling conventions:
* Python `float` values are modelled as `ℚ` (exact arithmetic); NaN-carrying
  float lists use an explicit `PyFloat` type with a `nan` constructor.
* Python `datetime` instants are modelled as rational time stamps
  (seconds); only differences of time stamps are ever used by the code.
* External effectful capabilities (the three backend-calling agents, the
  LLM-backed coordinator, `hashlib.md5`, the seeded numpy normal sampler)
  are universally-quantified parameters of the model: the theorems hold
  for every instantiation, which is exactly what the source guarantees
  since it treats them as black boxes.
* Python `x in s` substring tests are modelled by `strIn`, and Python's
  negative-index list slice `xs[-k:]` by `pyLastSlice` (including the
  `k = 0` corner case where `xs[-0:]` is the whole list).
-/

namespace Oceanus

/-- Python's `needle in hay` substring test on strings: some suffix of
`hay` has `needle` as a prefix. -/
def strIn (needle hay : String) : Bool :=
  (hay.toList.tails).any (fun t => needle.toList.isPrefixOf t)

/-- Python's `str.lower()` (ASCII range, which covers every string the
code applies it to), as a character-wise map. -/
def pyLower (s : String) : String :=
  ⟨s.data.map Char.toLower⟩

/-- Python's `str.strip()`: remove leading and trailing whitespace. -/
def pyTrim (s : String) : String :=
  ⟨((s.data.dropWhile Char.isWhitespace).reverse.dropWhile
      Char.isWhitespace).reverse⟩

/-- Python's `xs[-k:]` slice that keeps the last `k` elements.  For
`k = 0` Python evaluates `xs[-0:]` as `xs[0:]`, i.e. the whole list;
for `k ≥ len(xs)` it is the whole list as well. -/
def pyLastSlice (xs : List α) (k : Nat) : List α :=
  if k = 0 then xs else xs.drop (xs.length - k)

/-- The last `k` elements of a list (the mathematical intent of a
bounded message buffer): `drop (length − k)`. -/
def takeLast (xs : List α) (k : Nat) : List α :=
  xs.drop (xs.length - k)

namespace Cyclic

/-- A spatial bounding box as stored under the `spatial_filter` key of an
intent dict (`parse_intent` in `cyclic_multi_agent.py`). -/
structure SpatialFilter where
  min_lat : ℚ
  max_lat : ℚ
  min_lon : ℚ
  max_lon : ℚ
deriving DecidableEq

/-- The intent dict built by `parse_intent` and mutated by the
`RefinementAgent`.  Python intents are open dicts; the
`temporal_filter` field models a temporal-bounds key, which no code in
the repository ever reads or writes (`_expand_temporal_criteria` is a
no-op) but which the spec speaks about, so it is carried here to make
those claims statable. -/
structure Intent where
  float_id : Option String
  spatial_filter : Option SpatialFilter
  region_name : Option String
  needs_measurements : Bool
  needs_metadata : Bool
  needs_semantic : Bool
  semantic_broadened : Bool := false
  metadata_enhanced : Bool := false
  temporal_filter : Option (ℚ × ℚ) := none
deriving DecidableEq

/-- The observable shape of an agent result dict, as far as the
`AnalysisAgent` quality assessors inspect it: presence of an `"error"`
key, the `count` value, and truthiness of the keys each `_assess_*`
function reads. -/
structure AgentDict where
  hasError : Bool
  count : Nat
  hasStatistics : Bool
  hasTimeRange : Bool
  hasSpatialCoverage : Bool
  hasFloatMetadata : Bool
  hasSummary : Bool
  hasCountField : Bool
  hasTopMatches : Bool
deriving DecidableEq

/-- `AnalysisAgent._assess_measurement_quality`. -/
def assess_measurement_quality (r : Option AgentDict) : ℚ :=
  match r with
  | none => 0
  | some d =>
    if d.hasError then 0
    else
      min ((if d.count > 0 then (4/10 : ℚ) else 0) +
           (if d.hasStatistics then (3/10 : ℚ) else 0) +
           (if d.hasTimeRange then (2/10 : ℚ) else 0) +
           (if d.hasSpatialCoverage then (1/10 : ℚ) else 0)) 1

/-- `AnalysisAgent._assess_metadata_quality`. -/
def assess_metadata_quality (r : Option AgentDict) : ℚ :=
  match r with
  | none => 0
  | some d =>
    if d.hasError then 0
    else
      min ((if d.hasFloatMetadata then (5/10 : ℚ) else 0) +
           (if d.hasSummary then (3/10 : ℚ) else 0) +
           (if d.hasCountField then (2/10 : ℚ) else 0)) 1

/-- `AnalysisAgent._assess_semantic_quality`. -/
def assess_semantic_quality (r : Option AgentDict) : ℚ :=
  match r with
  | none => 0
  | some d =>
    if d.hasError then 0
    else
      min ((if d.count > 0 then (6/10 : ℚ) else 0) +
           (if d.hasTopMatches then (4/10 : ℚ) else 0)) 1

/-- Keyword family used by `_assess_completeness` to decide whether the
query demands measurement data. -/
def completenessMeasurementWords : List String :=
  ["temperature", "salinity", "pressure", "measurement", "data", "profile"]

/-- Keyword family used by `_assess_completeness` for metadata. -/
def completenessMetadataWords : List String :=
  ["metadata", "instrument", "parameter", "deployment", "coverage"]

/-- Keyword family used by `_assess_completeness` for semantic search. -/
def completenessSemanticWords : List String :=
  ["similar", "pattern", "compare", "find", "anomal"]

/-- A non-`none` result dict without an `"error"` key, the success test
`results and "error" not in results` used by `_assess_completeness`. -/
def dictOk (r : Option AgentDict) : Bool :=
  match r with
  | none => false
  | some d => !d.hasError

/-- `AnalysisAgent._assess_completeness`: the fraction of demanded agents
(keyword families over the lowercased query) that returned without error. -/
def assess_completeness (query : String) (mr mdr sr : Option AgentDict) : ℚ :=
  let ql := pyLower query
  let needs_measurements := completenessMeasurementWords.any (fun w => strIn w ql)
  let needs_metadata := completenessMetadataWords.any (fun w => strIn w ql)
  let needs_semantic := completenessSemanticWords.any (fun w => strIn w ql)
  let score : ℚ :=
    (if needs_measurements && dictOk mr then 1 else 0) +
    (if needs_metadata && dictOk mdr then 1 else 0) +
    (if needs_semantic && dictOk sr then 1 else 0)
  let total_needed : Nat :=
    (if needs_measurements then 1 else 0) +
    (if needs_metadata then 1 else 0) +
    (if needs_semantic then 1 else 0)
  score / (max total_needed 1 : Nat)

/-- The four analyzer sub-scores. -/
structure QualityMetrics where
  measurement_quality : ℚ
  metadata_quality : ℚ
  semantic_quality : ℚ
  completeness : ℚ
deriving DecidableEq

/-- `AnalysisAgent._generate_refinement_suggestions`: the closed set of
suggestion strings, emitted under the source's threshold conditions. -/
def generate_refinement_suggestions (qm : QualityMetrics)
    (mr mdr sr : Option AgentDict) : List String :=
  (if qm.measurement_quality < 1/2 then
    (if mr = none || (mr.map (fun d => d.count)).getD 0 = 0 then
      ["Try expanding spatial or temporal search criteria for measurements"]
     else if (mr.map (fun d => d.hasError)).getD false then
      ["Retry measurement query with different parameters"]
     else [])
   else []) ++
  (if qm.metadata_quality < 1/2 &&
      (mdr = none || (mdr.map (fun d => d.hasError)).getD false) then
    ["Query additional metadata sources or expand search criteria"]
   else []) ++
  (if qm.semantic_quality < 1/2 &&
      (sr = none || (sr.map (fun d => d.count)).getD 0 = 0) then
    ["Broaden semantic search terms or adjust similarity thresholds"]
   else []) ++
  (if qm.completeness < 7/10 then
    ["Query additional data sources to provide more comprehensive analysis"]
   else [])

/-- The fields of the analysis dict returned by
`AnalysisAgent.analyze_results` that later nodes read (the formatted
`analysis_summary` string is pure presentation and is represented by the
metrics record itself). -/
structure AnalysisOut where
  quality_metrics : QualityMetrics
  overall_quality : ℚ
  needs_refinement : Bool
  refinement_suggestions : List String
deriving DecidableEq

/-- `AnalysisAgent.analyze_results`: computes the four sub-scores, their
mean, the suggestion list, and the refinement flag
`overall < 0.7 or len(suggestions) > 0`. -/
def analyze_results (query : String) (mr mdr sr : Option AgentDict) :
    AnalysisOut :=
  let qm : QualityMetrics :=
    { measurement_quality := assess_measurement_quality mr
      metadata_quality := assess_metadata_quality mdr
      semantic_quality := assess_semantic_quality sr
      completeness := assess_completeness query mr mdr sr }
  let overall : ℚ :=
    (qm.measurement_quality + qm.metadata_quality + qm.semantic_quality +
      qm.completeness) / 4
  let suggestions := generate_refinement_suggestions qm mr mdr sr
  { quality_metrics := qm
    overall_quality := overall
    needs_refinement := decide (overall < 7/10) || !suggestions.isEmpty
    refinement_suggestions := suggestions }

/-- `RefinementAgent._expand_spatial_criteria`: widen the bounding box by
2 degrees on each side, clamped to the global latitude/longitude limits;
a no-op when the intent has no `spatial_filter`. -/
def expand_spatial_criteria (intent : Intent) : Intent :=
  match intent.spatial_filter with
  | none => intent
  | some sf =>
    { intent with
      spatial_filter := some
        { min_lat := max (sf.min_lat - 2) (-90)
          max_lat := min (sf.max_lat + 2) 90
          min_lon := max (sf.min_lon - 2) (-180)
          max_lon := min (sf.max_lon + 2) 180 } }

/-- `RefinementAgent._expand_temporal_criteria`: the source body is
`logger.info("Temporal expansion not implemented yet"); return intent` —
the intent is returned unchanged for every input. -/
def expand_temporal_criteria (intent : Intent) : Intent :=
  intent

/-- `RefinementAgent._broaden_semantic_search`. -/
def broaden_semantic_search (intent : Intent) : Intent :=
  { intent with semantic_broadened := true }

/-- `RefinementAgent._enhance_metadata_search`. -/
def enhance_metadata_search (intent : Intent) : Intent :=
  { intent with metadata_enhanced := true }

/-- The body of the `for suggestion in suggestions` dispatch loop in
`RefinementAgent.refine_and_retry`: keyword tests over the lowercased
suggestion select the refinement applied. -/
def apply_suggestion (intent : Intent) (s : String) : Intent :=
  let sl := pyLower s
  if strIn "expand" sl && strIn "spatial" sl then
    expand_spatial_criteria intent
  else if strIn "expand" sl && strIn "temporal" sl then
    expand_temporal_criteria intent
  else if strIn "broaden" sl && strIn "semantic" sl then
    broaden_semantic_search intent
  else if strIn "additional" sl && strIn "metadata" sl then
    enhance_metadata_search intent
  else intent

/-- `RefinementAgent.refine_and_retry` (its `refined_intent` output): fold
the suggestion dispatch over the suggestion list. -/
def refine_and_retry (intent : Intent) (suggestions : List String) : Intent :=
  suggestions.foldl apply_suggestion intent

/-- The named regions table of `parse_intent`. -/
def regionsTable : List (String × SpatialFilter) :=
  [("arabian sea", ⟨10, 25, 55, 75⟩),
   ("bay of bengal", ⟨10, 25, 80, 95⟩),
   ("equatorial indian ocean", ⟨-5, 5, 40, 80⟩),
   ("southern indian ocean", ⟨-40, -20, 20, 80⟩)]

/-- First match of the regex `float (\d+)` over a character list: the
first position where the literal text `float ` is followed by at least
one digit yields the maximal digit run. -/
def findFloatId : List Char → Option String
  | [] => none
  | c :: rest =>
    let cs := c :: rest
    if "float ".toList.isPrefixOf cs then
      let ds := (cs.drop 6).takeWhile Char.isDigit
      if ds.isEmpty then findFloatId rest else some ⟨ds⟩
    else findFloatId rest

/-- Python's `str.title()` restricted to the space-separated lowercase
ASCII region names it is applied to: capitalize the first letter of each
word. -/
def pyTitle (s : String) : String :=
  String.intercalate " " ((s.splitOn " ").map (fun w => w.capitalize))

/-- Keyword family activating the measurement agent in `parse_intent`. -/
def parseMeasurementWords : List String :=
  ["temperature", "salinity", "pressure", "measurement", "data", "profile"]

/-- Keyword family activating the metadata agent in `parse_intent`. -/
def parseMetadataWords : List String :=
  ["metadata", "instrument", "parameter", "deployment", "coverage",
   "available"]

/-- Keyword family activating the semantic agent in `parse_intent`. -/
def parseSemanticWords : List String :=
  ["similar", "pattern", "inversion", "anomal", "compare", "find"]

/-- The pure core of the `parse_intent` graph node: build the intent dict
from the query.  When no keyword family matches, all three agents are
activated. -/
def parseQueryIntent (query : String) : Intent :=
  let ql := pyLower query
  let spatial := (regionsTable.find? (fun p => strIn p.1 ql))
  let needs_measurements := parseMeasurementWords.any (fun w => strIn w ql)
  let needs_metadata := parseMetadataWords.any (fun w => strIn w ql)
  let needs_semantic := parseSemanticWords.any (fun w => strIn w ql)
  let anyHit := needs_measurements || needs_metadata || needs_semantic
  { float_id := findFloatId ql.toList
    spatial_filter := spatial.map (fun p => p.2)
    region_name := spatial.map (fun p => pyTitle p.1)
    needs_measurements := needs_measurements || !anyHit
    needs_metadata := needs_metadata || !anyHit
    needs_semantic := needs_semantic || !anyHit }

/-- The information content of the final response string built by
`synthesize_response`: either the error echo `f"Error: {error}"`, or the
coordinator narrative together with the appended cycle summary (total
cycles, final quality score, analysis metrics). -/
inductive FinalResponse
  | errorResp (msg : String)
  | synthesized (coordinatorText : String) (totalCycles : Nat)
      (finalQuality : ℚ) (metrics : Option AnalysisOut)
deriving DecidableEq

/-- Whether a final response came out of the normal synthesis path
rather than the error echo. -/
def FinalResponse.isSynthesized : FinalResponse → Bool
  | .synthesized _ _ _ _ => true
  | .errorResp _ => false

/-- Modelled from the spec (for comparison only): `expand_temporal`
widening a temporal bound by 50% on each side when one exists, as the
claim states. -/
def specExpandTemporal (intent : Intent) : Intent :=
  match intent.temporal_filter with
  | none => intent
  | some (a, b) =>
    { intent with
      temporal_filter := some (a - (b - a) / 2, b + (b - a) / 2) }

/-- The `CyclicAgentState` TypedDict (the `messages` chat transcript,
which no graph node reads, is omitted). -/
structure OState where
  query : String
  intent : Option Intent
  cycle_count : Nat
  max_cycles : Nat
  measurement_results : Option AgentDict
  metadata_results : Option AgentDict
  semantic_results : Option AgentDict
  analysis_results : Option AnalysisOut
  needs_refinement : Bool
  refinement_suggestions : List String
  quality_score : ℚ
  final_response : Option FinalResponse
  error : Option String
deriving DecidableEq

/-- The external effectful capabilities the graph nodes call: the three
backend-querying agents (each a black-box function of the query and the
current intent, returning a result dict) and the LLM-backed coordinator. -/
structure Env where
  measurement_process : String → Intent → AgentDict
  metadata_process : String → Intent → AgentDict
  semantic_process : String → Intent → AgentDict
  coordinator : String → Option AgentDict → Option AgentDict →
    Option AgentDict → String

/-- The fresh `initial_state` dict built by
`CyclicMultiAgentArgoRAG.query` before invoking the graph. -/
def initState (query : String) (maxCycles : Nat) : OState :=
  { query := query
    intent := none
    cycle_count := 0
    max_cycles := maxCycles
    measurement_results := none
    metadata_results := none
    semantic_results := none
    analysis_results := none
    needs_refinement := false
    refinement_suggestions := []
    quality_score := 0
    final_response := none
    error := none }

/-- The `parse_intent` graph node: install the parsed intent and reset
the cycle bookkeeping. -/
def parse_intent (s : OState) : OState :=
  { s with
    intent := some (parseQueryIntent s.query)
    cycle_count := 0
    needs_refinement := false
    quality_score := 0 }

/-- The `execute_agents` graph node: run exactly the agents whose flag is
set in the intent, overwriting that agent's previous result; with a
missing intent the subscription raises and the handler records the error. -/
def execute_agents (env : Env) (s : OState) : OState :=
  match s.intent with
  | none => { s with error := some "intent is None" }
  | some it =>
    { s with
      measurement_results :=
        if it.needs_measurements then some (env.measurement_process s.query it)
        else s.measurement_results
      metadata_results :=
        if it.needs_metadata then some (env.metadata_process s.query it)
        else s.metadata_results
      semantic_results :=
        if it.needs_semantic then some (env.semantic_process s.query it)
        else s.semantic_results }

/-- The `analyze_quality` graph node. -/
def analyze_quality (s : OState) : OState :=
  let a := analyze_results s.query s.measurement_results s.metadata_results
    s.semantic_results
  { s with
    analysis_results := some a
    quality_score := a.overall_quality
    needs_refinement := a.needs_refinement
    refinement_suggestions := a.refinement_suggestions }

/-- The two outcomes of the conditional edge out of `analyze_quality`. -/
inductive Decision
  | refine
  | synthesize
deriving DecidableEq

/-- `should_refine`: refine only when no error is recorded, refinement is
requested, and the cycle counter is still below `max_cycles`. -/
def should_refine (s : OState) : Decision :=
  if s.error.isSome then .synthesize
  else if s.needs_refinement && decide (s.cycle_count < s.max_cycles) then
    .refine
  else .synthesize

/-- The `refine_intent` graph node: apply the refinement agent to the
intent and increment the cycle counter; with a missing intent the
`.copy()` raises and the handler records the error without incrementing. -/
def refine_intent (s : OState) : OState :=
  match s.intent with
  | none => { s with error := some "intent is None" }
  | some it =>
    { s with
      intent := some (refine_and_retry it s.refinement_suggestions)
      cycle_count := s.cycle_count + 1 }

/-- The `synthesize_response` graph node: echo the recorded error, or ask
the coordinator for the narrative and attach the cycle summary. -/
def synthesize_response (env : Env) (s : OState) : OState :=
  match s.error with
  | some e => { s with final_response := some (.errorResp e) }
  | none =>
    { s with
      final_response := some (.synthesized
        (env.coordinator s.query s.measurement_results s.metadata_results
          s.semantic_results)
        s.cycle_count s.quality_score s.analysis_results) }

/-- The compiled graph's cycle
`execute_agents → analyze_quality → should_refine → (refine_intent → …)`,
recording the value of `cycle_count` at each entry into
`execute_agents`.  The `fuel` argument is a structural bound only: each
recursive call is guarded by `should_refine = refine`, which requires
`cycle_count < max_cycles`, and each `refine_intent` on a live intent
increments `cycle_count`, so with `fuel = max_cycles − cycle_count` the
zero-fuel branch coincides with what the source's unbounded loop does
there (`should_refine` returns `synthesize` once `cycle_count` reaches
`max_cycles`); `runLoopFuel_fuel_irrelevant` below proves this
fuel-stability. -/
def runLoopFuel (env : Env) : Nat → OState → OState × List Nat
  | 0, s =>
    let s2 := analyze_quality (execute_agents env s)
    (synthesize_response env s2, [s.cycle_count])
  | fuel + 1, s =>
    let s2 := analyze_quality (execute_agents env s)
    match should_refine s2 with
    | .synthesize => (synthesize_response env s2, [s.cycle_count])
    | .refine =>
      let r := runLoopFuel env fuel (refine_intent s2)
      (r.1, s.cycle_count :: r.2)

/-- One full invocation of the compiled graph on a query: `parse_intent`
followed by the execute/analyze/refine cycle, returning the final state
and the trace of `cycle_count` values at each `execute_agents`
execution. -/
def runGraph (env : Env) (maxCycles : Nat) (query : String) :
    OState × List Nat :=
  runLoopFuel env maxCycles (parse_intent (initState query maxCycles))

/-- A concrete result dict used to instantiate the external agents in
closed test runs. -/
def constDict : AgentDict :=
  { hasError := false, count := 0, hasStatistics := false
    hasTimeRange := false, hasSpatialCoverage := false
    hasFloatMetadata := false, hasSummary := false
    hasCountField := false, hasTopMatches := false }

/-- A concrete environment for closed test runs: every external agent
returns `constDict` and the coordinator returns a fixed narrative. -/
def constEnv : Env :=
  { measurement_process := fun _ _ => constDict
    metadata_process := fun _ _ => constDict
    semantic_process := fun _ _ => constDict
    coordinator := fun _ _ _ _ => "narrative" }

/-- A concrete intent whose agent mask is empty. -/
def emptyMaskIntent : Intent :=
  { float_id := none, spatial_filter := none, region_name := none
    needs_measurements := false, needs_metadata := false
    needs_semantic := false }

/-- A concrete orchestrator state carrying the empty-mask intent, as it
would stand when the loop starts on that intent. -/
def emptyMaskState : OState :=
  { initState "" 3 with intent := some emptyMaskIntent }

end Cyclic

namespace Semantic

/-- The external numeric capabilities used by
`SemanticAgent._get_query_embedding` in `multi_agent_rag.py`:
`hashlib.md5(...).hexdigest()` on the encoded query, and the seeded
`np.random.normal(0, 0.1, 384)` draw (`np.random.seed(seed)` makes the
draw a pure function of the seed).  The theorems below hold for every
instantiation of these two functions. -/
structure EmbParams where
  md5hex : String → String
  draw : Nat → Fin 384 → ℝ

/-- Value of one hexadecimal digit (MD5 hexdigests only contain
`[0-9a-f]`; other characters would make Python's `int(_, 16)` raise). -/
def hexDigitVal (c : Char) : Nat :=
  if c.isDigit then c.toNat - '0'.toNat
  else if 'a' ≤ c && c ≤ 'f' then c.toNat - 'a'.toNat + 10
  else if 'A' ≤ c && c ≤ 'F' then c.toNat - 'A'.toNat + 10
  else 0

/-- Python's `int(s, 16)`. -/
def hexToNat (s : String) : Nat :=
  s.toList.foldl (fun a c => 16 * a + hexDigitVal c) 0

/-- `seed = int(hashlib.md5(query.lower().encode()).hexdigest()[:8], 16)`. -/
def seedOf (p : EmbParams) (query : String) : Nat :=
  hexToNat ((p.md5hex (pyLower query)).take 8)

/-- The un-normalized 384-sample draw
`np.random.seed(seed); np.random.normal(0, 0.1, 384)`. -/
def rawEmbedding (p : EmbParams) (query : String) : Fin 384 → ℝ :=
  p.draw (seedOf p query)

/-- `np.linalg.norm`: the Euclidean norm of a 384-vector. -/
noncomputable def l2norm (v : Fin 384 → ℝ) : ℝ :=
  Real.sqrt (∑ i, v i ^ 2)

/-- `SemanticAgent._get_query_embedding`: draw from the query-seeded
generator and normalize when the norm is positive. -/
noncomputable def get_query_embedding (p : EmbParams) (query : String) :
    Fin 384 → ℝ :=
  let e := rawEmbedding p query
  if 0 < l2norm e then (fun i => e i / l2norm e) else e

/-- A concrete instantiation of the external numerics: a constant hash
and a draw equal to the first standard basis vector. -/
noncomputable def testEmbParams : EmbParams :=
  { md5hex := fun _ => "0123abcd"
    draw := fun _ i => if i = 0 then 1 else 0 }

end Semantic

namespace Measurement

/-- A Python/numpy float that may be NaN.  The database columns
`temp_adjusted`, `psal_adjusted`, `pres_adjusted` are nullable FLOAT8,
so the value lists handed to `_calculate_stats` may carry NaN. -/
inductive PyFloat
  | nan
  | val (q : ℚ)
deriving DecidableEq

/-- Whether a value is NaN. -/
def PyFloat.isNaN : PyFloat → Bool
  | .nan => true
  | .val _ => false

/-- The rational payload of a non-NaN value. -/
def PyFloat.toRat : PyFloat → Option ℚ
  | .nan => none
  | .val q => some q

/-- The rational payloads of a value list. -/
def ratValues (vs : List PyFloat) : List ℚ :=
  vs.filterMap PyFloat.toRat

/-- `np.mean` over a float list: NaN as soon as any entry is NaN (IEEE
propagation), otherwise the arithmetic mean. -/
def npMean (vs : List PyFloat) : PyFloat :=
  if vs.isEmpty || vs.any PyFloat.isNaN then .nan
  else .val ((ratValues vs).sum / vs.length)

/-- `np.min` over a float list: NaN propagates. -/
def npMin (vs : List PyFloat) : PyFloat :=
  if vs.any PyFloat.isNaN then .nan
  else match (ratValues vs).min? with
    | some m => .val m
    | none => .nan

/-- `np.max` over a float list: NaN propagates. -/
def npMax (vs : List PyFloat) : PyFloat :=
  if vs.any PyFloat.isNaN then .nan
  else match (ratValues vs).max? with
    | some m => .val m
    | none => .nan

/-- `np.median` over a float list: NaN when any entry is NaN, otherwise
the middle of the sorted values (mean of the two middles for even
length). -/
def npMedian (vs : List PyFloat) : PyFloat :=
  if vs.isEmpty || vs.any PyFloat.isNaN then .nan
  else
    let sorted := (ratValues vs).mergeSort (fun a b => decide (a ≤ b))
    let n := sorted.length
    if n % 2 = 1 then .val (sorted.getD (n / 2) 0)
    else .val ((sorted.getD (n / 2 - 1) 0 + sorted.getD (n / 2) 0) / 2)

/-- The square of `np.std` (population variance, `ddof = 0`): NaN
propagates.  `np.std` itself is the nonnegative square root of this
value, which is irrational in general and is therefore represented by
its square. -/
def npVarPop (vs : List PyFloat) : PyFloat :=
  if vs.isEmpty || vs.any PyFloat.isNaN then .nan
  else
    let vals := ratValues vs
    let μ := vals.sum / vs.length
    .val (((vals.map (fun x => (x - μ) ^ 2)).sum) / vs.length)

/-- The per-parameter statistics dict built by
`MeasurementAgent._calculate_stats` (std represented by its square). -/
structure ParamStats where
  mean : PyFloat
  std_sq : PyFloat
  minV : PyFloat
  maxV : PyFloat
  median : PyFloat
deriving DecidableEq

/-- `MeasurementAgent._calculate_stats`: the empty dict for an empty
value list, otherwise the five numpy statistics over the *unfiltered*
value list. -/
def calculate_stats (values : List PyFloat) : Option ParamStats :=
  if values.isEmpty then none
  else some
    { mean := npMean values
      std_sq := npVarPop values
      minV := npMin values
      maxV := npMax values
      median := npMedian values }

/-- Modelled from the spec (for comparison only): statistics computed
while *ignoring* NaN/null values of the parameter, as the claim states. -/
def specCalculateStatsIgnoringNaN (values : List PyFloat) : Option ParamStats :=
  calculate_stats (values.filter (fun v => !v.isNaN))

/-- One row returned by the SQL adapter (fields the measurement branch
of `MeasurementAgent.process` reads; time stamps are opaque here). -/
structure ArgoMeasurement where
  platform_number : String
  latitude : PyFloat
  longitude : PyFloat
  pres_adjusted : PyFloat
  temp_adjusted : PyFloat
  psal_adjusted : PyFloat
deriving DecidableEq

/-- The statistics-bearing part of the result dict built by
`MeasurementAgent.process` from the measurement set returned by the
adapter: `count`, and the `statistics` key (absent when the set is
empty). -/
structure MeasResult where
  count : Nat
  statistics : Option (Option ParamStats × Option ParamStats × Option ParamStats)
deriving DecidableEq

/-- The tail of `MeasurementAgent.process` that turns the returned
measurement set into the result dict (`temp_stats`, `psal_stats`,
`pres_stats` computed by `_calculate_stats`; no `statistics` key when
the set is empty). -/
def process_measurements (ms : List ArgoMeasurement) : MeasResult :=
  if ms.isEmpty then { count := 0, statistics := none }
  else
    { count := ms.length
      statistics := some
        (calculate_stats (ms.map (fun m => m.temp_adjusted)),
         calculate_stats (ms.map (fun m => m.psal_adjusted)),
         calculate_stats (ms.map (fun m => m.pres_adjusted))) }

end Measurement

namespace Session

/-- `ConversationMessage` from `API/core/session_manager.py` (the
metadata dict is opaque to every claim and omitted; the uuid4 message id
is externally generated and passed in). -/
structure ConversationMessage where
  id : String
  session_id : String
  timestamp : ℚ
  role : String
  content : String
deriving DecidableEq

/-- One entry of the `previous_queries` context list. -/
structure PrevQuery where
  qtype : String
  timestamp : ℚ
  content : String
deriving DecidableEq

/-- The accumulated `context` dict of a session. -/
structure SessionContext where
  regions_discussed : List String
  floats_analyzed : List String
  parameters_of_interest : List String
  previous_queries : List PrevQuery
deriving DecidableEq

/-- The empty context of a fresh session. -/
def emptyContext : SessionContext :=
  { regions_discussed := []
    floats_analyzed := []
    parameters_of_interest := []
    previous_queries := [] }

/-- `ConversationSession`. -/
structure ConversationSession where
  session_id : String
  created_at : ℚ
  last_activity : ℚ
  messages : List ConversationMessage
  context : SessionContext
  user_preferences : List (String × String)
deriving DecidableEq

/-- The region vocabulary scanned by `_update_session_context`. -/
def contextRegions : List String :=
  ["arabian sea", "bay of bengal", "indian ocean",
   "equatorial indian ocean", "southern indian ocean"]

/-- The parameter vocabulary scanned by `_update_session_context`. -/
def contextParameters : List String :=
  ["temperature", "salinity", "pressure", "depth"]

/-- Append each vocabulary word found in the content and not yet
tracked, preserving first-seen order (the `for`/`append` loops of
`_update_session_context`). -/
def addVocabHits (cur : List String) (vocab : List String)
    (contentLower : String) : List String :=
  vocab.foldl
    (fun acc w => if strIn w contentLower && !acc.contains w then acc ++ [w]
                  else acc) cur

/-- All matches of `re.findall(r"float (\d+)", content)`: every
non-overlapping occurrence of the literal `float ` followed by a maximal
digit run. -/
def findAllFloatIds (cs : List Char) : List String :=
  match cs with
  | [] => []
  | c :: rest =>
    if "float ".toList.isPrefixOf (c :: rest) then
      let tail6 := rest.drop 5
      let ds := tail6.takeWhile Char.isDigit
      if ds.isEmpty then findAllFloatIds rest
      else String.mk ds :: findAllFloatIds (tail6.dropWhile Char.isDigit)
    else findAllFloatIds rest
termination_by cs.length
decreasing_by
  all_goals simp_wf
  all_goals
    first
    | omega
    | (have h1 : (List.dropWhile Char.isDigit (List.drop 5 rest)).length ≤
          (List.drop 5 rest).length :=
        (List.dropWhile_sublist _).length_le
       have h2 : (List.drop 5 rest).length ≤ rest.length := by
         simp only [List.length_drop]
         omega
       omega)

/-- The query-type classification chain of `_update_session_context`. -/
def classifyQueryType (contentLower : String) : String :=
  if ["compare", "comparison", "versus", "vs"].any
      (fun w => strIn w contentLower) then "comparative"
  else if ["pattern", "similar", "anomal", "unusual"].any
      (fun w => strIn w contentLower) then "pattern_analysis"
  else if ["metadata", "instrument", "deployment"].any
      (fun w => strIn w contentLower) then "metadata"
  else if ["measurement", "data", "temperature", "salinity"].any
      (fun w => strIn w contentLower) then "measurement"
  else "unknown"

/-- `SessionManager._update_session_context`: track regions, float ids
and parameters mentioned in the message, and (for user messages) append
a record to `previous_queries`, keeping only the last 20. -/
def update_session_context (s : ConversationSession)
    (msg : ConversationMessage) : ConversationSession :=
  let cl := pyLower msg.content
  let ctx := s.context
  let newRegions := addVocabHits ctx.regions_discussed contextRegions cl
  let newFloats :=
    (findAllFloatIds cl.toList).foldl
      (fun acc fid => if !acc.contains fid then acc ++ [fid] else acc)
      ctx.floats_analyzed
  let newParams := addVocabHits ctx.parameters_of_interest contextParameters cl
  let newPrev :=
    if msg.role == "user" then
      let pq : PrevQuery :=
        { qtype := classifyQueryType cl
          timestamp := msg.timestamp
          content := msg.content.take 100 }
      let pqs := ctx.previous_queries ++ [pq]
      if pqs.length > 20 then pyLastSlice pqs 20 else pqs
    else ctx.previous_queries
  { s with context :=
      { regions_discussed := newRegions
        floats_analyzed := newFloats
        parameters_of_interest := newParams
        previous_queries := newPrev } }

/-- The `SessionManager` store: configuration plus the `session_id →
ConversationSession` dict (an association list with unique keys, in
insertion order). -/
structure ManagerState where
  session_timeout : ℚ
  max_messages_per_session : Nat
  sessions : List (String × ConversationSession)
deriving DecidableEq

/-- Dict lookup `self.sessions.get(session_id)`. -/
def findSession (sessions : List (String × ConversationSession))
    (sid : String) : Option ConversationSession :=
  (sessions.find? (fun p => p.1 == sid)).map (fun p => p.2)

/-- Store the (mutated) session object back under its key. -/
def storeSession (sessions : List (String × ConversationSession))
    (sid : String) (s : ConversationSession) :
    List (String × ConversationSession) :=
  sessions.map (fun p => if p.1 == sid then (sid, s) else p)

/-- Dict deletion `del self.sessions[session_id]`
(`SessionManager.delete_session`). -/
def eraseSession (sessions : List (String × ConversationSession))
    (sid : String) : List (String × ConversationSession) :=
  sessions.filter (fun p => p.1 != sid)

/-- `SessionManager._is_session_expired`:
`(now − last_activity).total_seconds() > session_timeout`. -/
def is_session_expired (timeout now : ℚ) (s : ConversationSession) : Bool :=
  decide (now - s.last_activity > timeout)

/-- `SessionManager.create_session` with an externally generated uuid. -/
def create_session (st : ManagerState) (now : ℚ) (sid : String)
    (prefs : List (String × String)) : ManagerState :=
  { st with sessions := st.sessions ++
      [(sid, { session_id := sid
               created_at := now
               last_activity := now
               messages := []
               context := emptyContext
               user_preferences := prefs })] }

/-- `SessionManager.get_session`: return `None` for an unknown id;
evict and return `None` for an expired session; otherwise refresh
`last_activity` and return the session.  The successive `datetime.now()`
reads within one call are collapsed into the single instant `now`. -/
def get_session (st : ManagerState) (now : ℚ) (sid : String) :
    Option ConversationSession × ManagerState :=
  match findSession st.sessions sid with
  | none => (none, st)
  | some s =>
    if is_session_expired st.session_timeout now s then
      (none, { st with sessions := eraseSession st.sessions sid })
    else
      let s1 := { s with last_activity := now }
      (some s1, { st with sessions := storeSession st.sessions sid s1 })

/-- `SessionManager.add_message`: load the session via `get_session`,
append the new message, refresh `last_activity`, update the context,
and clip the history to the most recent `max_messages_per_session`
entries via the Python slice `messages[-max:]`. -/
def add_message (st : ManagerState) (now : ℚ) (mid sid role content : String) :
    Option ConversationMessage × ManagerState :=
  match get_session st now sid with
  | (none, st1) => (none, st1)
  | (some s, st1) =>
    let msg : ConversationMessage :=
      { id := mid, session_id := sid, timestamp := now, role := role
        content := content }
    let s1 := { s with messages := s.messages ++ [msg], last_activity := now }
    let s2 := update_session_context s1 msg
    let s3 :=
      if s2.messages.length > st.max_messages_per_session then
        { s2 with messages := pyLastSlice s2.messages st.max_messages_per_session }
      else s2
    (some msg, { st1 with sessions := storeSession st1.sessions sid s3 })

/-- One scripted `add_message` call: its clock instant, externally
generated uuid, role and content. -/
structure AddCall where
  now : ℚ
  mid : String
  role : String
  content : String
deriving DecidableEq

/-- Run a sequence of `add_message` calls against one session,
discarding the returned message handles. -/
def addAll (st : ManagerState) (sid : String) (calls : List AddCall) :
    ManagerState :=
  calls.foldl (fun acc c => (add_message acc c.now c.mid sid c.role c.content).2) st

/-- The message record each scripted call appends. -/
def msgOfCall (sid : String) (c : AddCall) : ConversationMessage :=
  { id := c.mid, session_id := sid, timestamp := c.now, role := c.role
    content := c.content }

/-- A concrete session created at time 0, for closed instances. -/
def testSession : ConversationSession :=
  { session_id := "sess-a", created_at := 0, last_activity := 0
    messages := [], context := emptyContext, user_preferences := [] }

/-- A concrete store holding `testSession` under its id, with the source
default timeout (3600 s) and history bound (100). -/
def testStore : ManagerState :=
  { session_timeout := 3600, max_messages_per_session := 100
    sessions := [("sess-a", testSession)] }

end Session

namespace RateLimit

/-- `RateLimitMiddleware._is_allowed` on one client's deque: pop expired
timestamps from the front (`while front <= now - period`), then admit
and record `now` iff the deque holds fewer than `calls` entries.
Returns the decision and the new deque. -/
def is_allowed (calls : Nat) (period now : ℚ) (dq : List ℚ) :
    Bool × List ℚ :=
  let dq2 := dq.dropWhile (fun ts => decide (ts ≤ now - period))
  if dq2.length < calls then (true, dq2 ++ [now]) else (false, dq2)

/-- Feed a sequence of request instants for one client through the rate
limiter, starting from deque `dq` with already-admitted instants `adm`;
returns the final admitted list. -/
def runRequests (calls : Nat) (period : ℚ) :
    List ℚ → List ℚ → List ℚ → List ℚ
  | _, adm, [] => adm
  | dq, adm, t :: ts =>
    let r := is_allowed calls period t dq
    runRequests calls period r.2 (if r.1 then adm ++ [t] else adm) ts

/-- The instants at which requests are admitted (HTTP 200 rather than
429), for a fresh client. -/
def admittedTimes (calls : Nat) (period : ℚ) (times : List ℚ) : List ℚ :=
  runRequests calls period [] [] times

/-- The number of admitted requests falling in the rolling window
`(x, x + period]`. -/
def windowCount (period x : ℚ) (adm : List ℚ) : Nat :=
  adm.countP (fun t => decide (x < t ∧ t ≤ x + period))

end RateLimit

namespace Classify

/-- The redirect patterns checked first by
`CyclicMultiAgentArgoRAG._classify_query`. -/
def mainAgentPatterns : List String :=
  ["list all float", "all float id", "show me all float"]

/-- The conversational patterns. -/
def conversational_patterns : List String :=
  ["hello", "hi", "hey", "greetings",
   "thank you", "thanks", "thx",
   "goodbye", "bye", "see you",
   "how are you", "what can you do", "help",
   "who are you", "what is your name"]

/-- The previous-question patterns. -/
def previous_patterns : List String :=
  ["what was my previous question",
   "what did i ask before",
   "what was my last query",
   "previous question",
   "last question"]

/-- The oceanographic terms counted before routing to the multi-agent
path. -/
def oceanographic_terms : List String :=
  ["temperature", "temp", "salinity", "salt", "pressure", "depth",
   "float", "argo", "ocean", "sea", "marine", "measurement", "data",
   "analysis", "trend", "pattern", "arabian sea", "bay of bengal",
   "indian ocean", "latitude", "longitude", "cycle", "profile"]

/-- The specific data-request terms, any of which forces the multi-agent
path. -/
def dataRequestTerms : List String :=
  ["float", "argo", "measurement", "data", "analysis"]

/-- The definition-request markers. -/
def definitionTerms : List String :=
  ["what is", "define", "explain", "meaning"]

/-- A regex word character (`\w`), restricted to ASCII as used by the
queries at hand. -/
def wordChar (c : Char) : Bool :=
  c.isAlphanum || c == '_'

/-- Whether the regex `\b\d{7}\b` matches at the start of `cs`, with
`prev` the character before that position (if any). -/
def sevenDigitsHere (prev : Option Char) (cs : List Char) : Bool :=
  (match prev with | none => true | some c => !wordChar c) &&
  (cs.take 7).length == 7 &&
  (cs.take 7).all Char.isDigit &&
  (match cs.drop 7 with | [] => true | c :: _ => !wordChar c)

/-- `re.search(r"\b\d{7}\b", s)`: some position matches. -/
def hasSevenDigitId : Option Char → List Char → Bool
  | _, [] => false
  | prev, c :: rest =>
    sevenDigitsHere prev (c :: rest) || hasSevenDigitId (some c) rest

/-- The routing outcome of `_classify_query` (the canned response texts
attached to the non-multi-agent outcomes carry no routing information
and are omitted). -/
inductive Route
  | mainAgentRedirect
  | conversational
  | previousQuestion
  | multiAgent
  | definition
  | fallbackConversational
deriving DecidableEq

/-- The `needs_multi_agent` field of the classification result. -/
def Route.needsMultiAgent : Route → Bool
  | .multiAgent => true
  | _ => false

/-- `CyclicMultiAgentArgoRAG._classify_query` on the lowercased, stripped
query: list-redirect patterns, then conversational patterns, then
previous-question patterns, then the oceanographic-term count / specific
data terms / 7-digit float-id regex, then single-term definitions, and
finally the conversational fallback. -/
def classify_query (query : String) : Route :=
  let ql := pyTrim (pyLower query)
  if mainAgentPatterns.any (fun p => strIn p ql) then .mainAgentRedirect
  else if conversational_patterns.any (fun p => strIn p ql) then
    .conversational
  else if previous_patterns.any (fun p => strIn p ql) then .previousQuestion
  else
    let ocount := (oceanographic_terms.filter (fun t => strIn t ql)).length
    if decide (2 ≤ ocount) || dataRequestTerms.any (fun t => strIn t ql) ||
        hasSevenDigitId none ql.toList then
      .multiAgent
    else if ocount == 1 && definitionTerms.any (fun w => strIn w ql) then
      .definition
    else .fallbackConversational

end Classify

/-! ## Theorems -/

namespace Cyclic

lemma analyze_quality_error (s : OState) : (analyze_quality s).error = s.error :=
  rfl

lemma analyze_quality_intent (s : OState) :
    (analyze_quality s).intent = s.intent :=
  rfl

lemma analyze_quality_cycle_count (s : OState) :
    (analyze_quality s).cycle_count = s.cycle_count :=
  rfl

lemma analyze_quality_max_cycles (s : OState) :
    (analyze_quality s).max_cycles = s.max_cycles :=
  rfl

lemma execute_agents_intent (env : Env) (s : OState) :
    (execute_agents env s).intent = s.intent := by
  unfold execute_agents
  cases s.intent <;> rfl

lemma execute_agents_cycle_count (env : Env) (s : OState) :
    (execute_agents env s).cycle_count = s.cycle_count := by
  unfold execute_agents
  cases s.intent <;> rfl

lemma execute_agents_max_cycles (env : Env) (s : OState) :
    (execute_agents env s).max_cycles = s.max_cycles := by
  unfold execute_agents
  cases s.intent <;> rfl

lemma execute_agents_error_of_isSome (env : Env) (s : OState)
    (h : s.intent.isSome) : (execute_agents env s).error = s.error := by
  unfold execute_agents
  cases hi : s.intent with
  | none => rw [hi] at h; simp at h
  | some it => rfl

lemma intent_isSome_of_execute_error_none (env : Env) (s : OState)
    (h : (execute_agents env s).error = none) : s.intent.isSome := by
  unfold execute_agents at h
  cases hi : s.intent with
  | none => rw [hi] at h; simp at h
  | some it => simp

lemma synthesize_response_cycle_count (env : Env) (s : OState) :
    (synthesize_response env s).cycle_count = s.cycle_count := by
  unfold synthesize_response
  cases s.error <;> rfl

lemma refine_intent_cycle_count_of_isSome (s : OState) (h : s.intent.isSome) :
    (refine_intent s).cycle_count = s.cycle_count + 1 := by
  unfold refine_intent
  cases hi : s.intent with
  | none => rw [hi] at h; simp at h
  | some it => rfl

lemma refine_intent_max_cycles (s : OState) :
    (refine_intent s).max_cycles = s.max_cycles := by
  unfold refine_intent
  cases s.intent <;> rfl

lemma should_refine_eq_refine_iff (s : OState) :
    should_refine s = .refine ↔
      s.error = none ∧ s.needs_refinement = true ∧
        s.cycle_count < s.max_cycles := by
  unfold should_refine
  cases he : s.error with
  | some e => simp
  | none =>
    by_cases hn : s.needs_refinement <;>
      by_cases hc : s.cycle_count < s.max_cycles <;>
        simp [hn, hc]

/-- Fuel-stability of the loop model: as soon as the fuel covers the
remaining budget `max_cycles − cycle_count`, adding more fuel does not
change the result — the recursion is in fact bounded by `should_refine`,
not by the fuel. -/
lemma runLoopFuel_fuel_irrelevant (env : Env) :
    ∀ (fuel : Nat) (s : OState), s.max_cycles ≤ s.cycle_count + fuel →
      runLoopFuel env fuel s = runLoopFuel env (fuel + 1) s := by
  intro fuel
  induction fuel with
  | zero =>
    intro s h
    have hsr : should_refine (analyze_quality (execute_agents env s)) =
        .synthesize := by
      unfold should_refine
      cases he : (analyze_quality (execute_agents env s)).error with
      | some e => simp
      | none =>
        have hc : ¬ (analyze_quality (execute_agents env s)).cycle_count <
            (analyze_quality (execute_agents env s)).max_cycles := by
          rw [analyze_quality_cycle_count, analyze_quality_max_cycles,
            execute_agents_cycle_count, execute_agents_max_cycles]
          omega
        simp [hc]
    simp only [runLoopFuel, hsr]
  | succ fuel ih =>
    intro s h
    simp only [runLoopFuel]
    cases hsr : should_refine (analyze_quality (execute_agents env s)) with
    | synthesize => rfl
    | refine =>
      have hfacts := (should_refine_eq_refine_iff _).mp hsr
      have herr : (execute_agents env s).error = none := by
        have := hfacts.1
        rwa [analyze_quality_error] at this
      have hint : s.intent.isSome :=
        intent_isSome_of_execute_error_none env s herr
      have hint2 : (analyze_quality (execute_agents env s)).intent.isSome := by
        rwa [analyze_quality_intent, execute_agents_intent]
      have hrec := ih (refine_intent (analyze_quality (execute_agents env s)))
        (by
          rw [refine_intent_cycle_count_of_isSome _ hint2,
            refine_intent_max_cycles, analyze_quality_cycle_count,
            analyze_quality_max_cycles, execute_agents_cycle_count,
            execute_agents_max_cycles]
          omega)
      rw [hrec]
      rfl

/-- The shape of the `execute_agents` trace: starting from cycle counter
`c`, the loop visits exactly the consecutive counters `c, c+1, …,
c+k−1`; the bound `c + (k−1) ≤ max_cycles` for `k > 1` comes from the
`cycle_count < max_cycles` guard in `should_refine`, not from the fuel. -/
lemma runLoopFuel_trace (env : Env) :
    ∀ (fuel : Nat) (s : OState), ∃ k : Nat,
      1 ≤ k ∧ k ≤ fuel + 1 ∧
      (runLoopFuel env fuel s).2 = List.range' s.cycle_count k 1 ∧
      (k = 1 ∨ s.cycle_count + (k - 1) ≤ s.max_cycles) ∧
      (runLoopFuel env fuel s).1.cycle_count = s.cycle_count + (k - 1) := by
  intro fuel
  induction fuel with
  | zero =>
    intro s
    refine ⟨1, le_refl 1, le_refl 1, rfl, Or.inl rfl, ?_⟩
    simp only [runLoopFuel]
    rw [synthesize_response_cycle_count, analyze_quality_cycle_count,
      execute_agents_cycle_count]
    omega
  | succ fuel ih =>
    intro s
    cases hsr : should_refine (analyze_quality (execute_agents env s)) with
    | synthesize =>
      refine ⟨1, le_refl 1, by omega, ?_, Or.inl rfl, ?_⟩
      · simp only [runLoopFuel, hsr, List.range'_one]
      · simp only [runLoopFuel, hsr]
        rw [synthesize_response_cycle_count, analyze_quality_cycle_count,
          execute_agents_cycle_count]
        omega
    | refine =>
      have hfacts := (should_refine_eq_refine_iff _).mp hsr
      have herr : (execute_agents env s).error = none := by
        have := hfacts.1
        rwa [analyze_quality_error] at this
      have hint2 : (analyze_quality (execute_agents env s)).intent.isSome := by
        rw [analyze_quality_intent, execute_agents_intent]
        exact intent_isSome_of_execute_error_none env s herr
      have hlt : s.cycle_count < s.max_cycles := by
        have := hfacts.2.2
        rwa [analyze_quality_cycle_count, analyze_quality_max_cycles,
          execute_agents_cycle_count, execute_agents_max_cycles] at this
      obtain ⟨k, hk1, hkf, htr, hbound, hfin⟩ :=
        ih (refine_intent (analyze_quality (execute_agents env s)))
      have hcc : (refine_intent
          (analyze_quality (execute_agents env s))).cycle_count =
          s.cycle_count + 1 := by
        rw [refine_intent_cycle_count_of_isSome _ hint2,
          analyze_quality_cycle_count, execute_agents_cycle_count]
      have hmm : (refine_intent
          (analyze_quality (execute_agents env s))).max_cycles =
          s.max_cycles := by
        rw [refine_intent_max_cycles, analyze_quality_max_cycles,
          execute_agents_max_cycles]
      refine ⟨k + 1, by omega, by omega, ?_, ?_, ?_⟩
      · simp only [runLoopFuel, hsr]
        rw [htr, hcc, List.range'_succ]
      · right
        rcases hbound with h1 | h2
        · subst h1
          simp only [Nat.add_sub_cancel]
          omega
        · rw [hcc, hmm] at h2
          omega
      · simp only [runLoopFuel, hsr]
        rw [hfin, hcc]
        omega

/-- C1: for every environment, cycle budget and query, the trace of
`cycle_count` values observed at the successive `execute_agents`
executions is strictly increasing (hence the counter is monotonically
non-decreasing across all transitions, since only `refine_intent`
changes it), every observed value is at most `max_cycles`, the number of
`execute_agents` executions is at most `max_cycles + 1`, and the final
cycle counter is at most `max_cycles`. -/
theorem cyclic_cycle_counter_bounded (env : Env) (maxCycles : Nat)
    (query : String) :
    List.Chain' (· < ·) (runGraph env maxCycles query).2 ∧
    (∀ c ∈ (runGraph env maxCycles query).2, c ≤ maxCycles) ∧
    (runGraph env maxCycles query).2.length ≤ maxCycles + 1 ∧
    (runGraph env maxCycles query).1.cycle_count ≤ maxCycles := by
  obtain ⟨k, hk1, hkf, htr, hbound, hfin⟩ :=
    runLoopFuel_trace env maxCycles (parse_intent (initState query maxCycles))
  have hcc0 : (parse_intent (initState query maxCycles)).cycle_count = 0 := rfl
  have hmax : (parse_intent (initState query maxCycles)).max_cycles =
      maxCycles := rfl
  rw [hcc0] at htr hfin hbound
  rw [hmax] at hbound
  have hkmax : k ≤ maxCycles + 1 := by
    rcases hbound with h1 | h2
    · omega
    · omega
  unfold runGraph
  rw [htr]
  refine ⟨?_, ?_, ?_, ?_⟩
  · rcases Nat.exists_eq_add_of_le hk1 with ⟨k2, hk2⟩
    rw [hk2, Nat.add_comm 1 k2, List.range'_succ]
    exact List.chain_lt_range' 0 k2 (by omega)
  · intro c hc
    rw [List.mem_range'_1] at hc
    omega
  · rw [List.length_range']
    exact hkmax
  · rw [hfin]
    omega

lemma apply_suggestion_mask (it : Intent) (a : String) :
    (apply_suggestion it a).needs_measurements = it.needs_measurements ∧
    (apply_suggestion it a).needs_metadata = it.needs_metadata ∧
    (apply_suggestion it a).needs_semantic = it.needs_semantic := by
  cases hsf : it.spatial_filter <;>
    simp only [apply_suggestion, expand_spatial_criteria,
      expand_temporal_criteria, broaden_semantic_search,
      enhance_metadata_search, hsf] <;>
    split_ifs <;>
    exact ⟨rfl, rfl, rfl⟩

lemma refine_and_retry_mask (it : Intent) (suggs : List String) :
    (refine_and_retry it suggs).needs_measurements = it.needs_measurements ∧
    (refine_and_retry it suggs).needs_metadata = it.needs_metadata ∧
    (refine_and_retry it suggs).needs_semantic = it.needs_semantic := by
  unfold refine_and_retry
  induction suggs generalizing it with
  | nil => exact ⟨rfl, rfl, rfl⟩
  | cons a l ih =>
    simp only [List.foldl_cons]
    obtain ⟨h1, h2, h3⟩ := ih (apply_suggestion it a)
    obtain ⟨g1, g2, g3⟩ := apply_suggestion_mask it a
    exact ⟨h1.trans g1, h2.trans g2, h3.trans g3⟩

lemma execute_agents_id_of_empty_mask (env : Env) (s : OState) (it : Intent)
    (hit : s.intent = some it)
    (hm : it.needs_measurements = false) (hd : it.needs_metadata = false)
    (hs : it.needs_semantic = false) :
    execute_agents env s = s := by
  simp only [execute_agents, hit]
  rw [hm, hd, hs, ← hit]
  rfl

lemma analyze_quality_results (s : OState) :
    (analyze_quality s).measurement_results = s.measurement_results ∧
    (analyze_quality s).metadata_results = s.metadata_results ∧
    (analyze_quality s).semantic_results = s.semantic_results :=
  ⟨rfl, rfl, rfl⟩

lemma runLoopFuel_empty_mask_invariant :
    ∀ (env : Env) (fuel : Nat) (s : OState) (it : Intent),
      s.intent = some it →
      it.needs_measurements = false → it.needs_metadata = false →
      it.needs_semantic = false →
      s.measurement_results = none → s.metadata_results = none →
      s.semantic_results = none → s.error = none →
      (runLoopFuel env fuel s).1.measurement_results = none ∧
      (runLoopFuel env fuel s).1.metadata_results = none ∧
      (runLoopFuel env fuel s).1.semantic_results = none ∧
      (runLoopFuel env fuel s).1.error = none ∧
      ((runLoopFuel env fuel s).1.final_response.map
        FinalResponse.isSynthesized) = some true := by
  intro env fuel
  induction fuel with
  | zero =>
    intro s it hit hm hd hs hmr hdr hsr herr
    simp only [runLoopFuel]
    rw [execute_agents_id_of_empty_mask env s it hit hm hd hs]
    have h2e : (analyze_quality s).error = none := by
      rw [analyze_quality_error]; exact herr
    unfold synthesize_response
    rw [h2e]
    exact ⟨hmr, hdr, hsr, rfl, rfl⟩
  | succ fuel ih =>
    intro s it hit hm hd hs hmr hdr hsr herr
    simp only [runLoopFuel]
    rw [execute_agents_id_of_empty_mask env s it hit hm hd hs]
    cases hdec : should_refine (analyze_quality s) with
    | synthesize =>
      have h2e : (analyze_quality s).error = none := by
        rw [analyze_quality_error]; exact herr
      unfold synthesize_response
      rw [h2e]
      exact ⟨hmr, hdr, hsr, rfl, rfl⟩
    | refine =>
      have hint2 : (analyze_quality s).intent = some it := by
        rw [analyze_quality_intent]; exact hit
      have hri : refine_intent (analyze_quality s) =
          { analyze_quality s with
            intent := some (refine_and_retry it
              (analyze_quality s).refinement_suggestions)
            cycle_count := (analyze_quality s).cycle_count + 1 } := by
        unfold refine_intent
        rw [hint2]
      obtain ⟨g1, g2, g3⟩ := refine_and_retry_mask it
        (analyze_quality s).refinement_suggestions
      refine ih (refine_intent (analyze_quality s))
        (refine_and_retry it (analyze_quality s).refinement_suggestions)
        ?_ ?_ ?_ ?_ ?_ ?_ ?_ ?_
      · rw [hri]
      · rw [g1]; exact hm
      · rw [g2]; exact hd
      · rw [g3]; exact hs
      · rw [hri]; exact hmr
      · rw [hri]; exact hdr
      · rw [hri]; exact hsr
      · rw [hri]; exact herr

/-- C3 (amended): starting the execute/analyze/refine loop on a state
whose intent has an empty agent mask (and no results or error yet
recorded), no agent is ever executed — all three result slots stay
`None` — and the machine terminates through the normal synthesis path
with no error recorded: the `error` terminal is not reached. -/
theorem cyclic_empty_mask_no_agent_no_error (env : Env) (fuel : Nat)
    (s : OState) (it : Intent) (hit : s.intent = some it)
    (hm : it.needs_measurements = false) (hd : it.needs_metadata = false)
    (hs : it.needs_semantic = false)
    (hmr : s.measurement_results = none) (hdr : s.metadata_results = none)
    (hsr : s.semantic_results = none) (herr : s.error = none) :
    (runLoopFuel env fuel s).1.measurement_results = none ∧
    (runLoopFuel env fuel s).1.metadata_results = none ∧
    (runLoopFuel env fuel s).1.semantic_results = none ∧
    (runLoopFuel env fuel s).1.error = none ∧
    ((runLoopFuel env fuel s).1.final_response.map
      FinalResponse.isSynthesized) = some true :=
  runLoopFuel_empty_mask_invariant env fuel s it hit hm hd hs hmr hdr hsr herr

/-- C3 (witness): the amended theorem applied to the concrete empty-mask
state with the constant environment and the source default
`max_cycles = 3`. -/
theorem cyclic_empty_mask_no_agent_no_error_witness :
    (runLoopFuel constEnv 3 emptyMaskState).1.measurement_results = none ∧
    (runLoopFuel constEnv 3 emptyMaskState).1.metadata_results = none ∧
    (runLoopFuel constEnv 3 emptyMaskState).1.semantic_results = none ∧
    (runLoopFuel constEnv 3 emptyMaskState).1.error = none ∧
    ((runLoopFuel constEnv 3 emptyMaskState).1.final_response.map
      FinalResponse.isSynthesized) = some true :=
  cyclic_empty_mask_no_agent_no_error constEnv 3 emptyMaskState
    emptyMaskIntent rfl rfl rfl rfl rfl rfl rfl rfl

/-- C3 (counterexample to the claim as stated): running the loop on the
concrete empty-mask intent with the source default `max_cycles = 3`
terminates with `error = None` and a synthesized (non-error) final
response — the machine does **not** reach the terminal error state —
while indeed never executing an agent. -/
theorem cyclic_empty_mask_counterexample :
    (runLoopFuel constEnv 3 emptyMaskState).1.error = none ∧
    ((runLoopFuel constEnv 3 emptyMaskState).1.final_response.map
      FinalResponse.isSynthesized) = some true ∧
    (runLoopFuel constEnv 3 emptyMaskState).1.measurement_results = none ∧
    (runLoopFuel constEnv 3 emptyMaskState).1.metadata_results = none ∧
    (runLoopFuel constEnv 3 emptyMaskState).1.semantic_results = none := by
  obtain ⟨h1, h2, h3, h4, h5⟩ :=
    runLoopFuel_empty_mask_invariant constEnv 3 emptyMaskState
      emptyMaskIntent rfl rfl rfl rfl rfl rfl rfl rfl
  exact ⟨h4, h5, h1, h2, h3⟩

/-- C4 (amended): `_expand_temporal_criteria` is a no-op — the source
body only logs "Temporal expansion not implemented yet" and returns the
intent unchanged, whether or not a temporal bound is present. -/
theorem expand_temporal_is_noop (intent : Intent) :
    expand_temporal_criteria intent = intent :=
  rfl

/-- C4 (counterexample to the claim as stated): on a concrete intent
carrying the temporal bound `(0, 100)`, the code returns the intent
unchanged (bound still `(0, 100)`), whereas widening by 50% on each
side — what the claim states — would produce the bound `(-50, 150)`. -/
theorem expand_temporal_counterexample :
    (expand_temporal_criteria
      { emptyMaskIntent with temporal_filter := some (0, 100) }
      ).temporal_filter = some (0, 100) ∧
    (specExpandTemporal
      { emptyMaskIntent with temporal_filter := some (0, 100) }
      ).temporal_filter = some (-50, 150) ∧
    expand_temporal_criteria
      { emptyMaskIntent with temporal_filter := some (0, 100) } ≠
    specExpandTemporal
      { emptyMaskIntent with temporal_filter := some (0, 100) } := by
  have h2 : (specExpandTemporal
      { emptyMaskIntent with temporal_filter := some (0, 100) }
      ).temporal_filter = some (-50, 150) := by
    simp only [specExpandTemporal]
    norm_num
  refine ⟨rfl, h2, fun h => ?_⟩
  have h3 := congrArg Intent.temporal_filter h
  rw [h2] at h3
  have h4 : ((0 : ℚ), (100 : ℚ)) = ((-50 : ℚ), (150 : ℚ)) :=
    Option.some.inj h3
  have h5 : (0 : ℚ) = -50 := congrArg Prod.fst h4
  norm_num at h5

/-- C8: on an intent whose spatial filter satisfies `min ≤ max` on both
axes and lies inside the global latitude/longitude limits,
`_expand_spatial_criteria` produces exactly the box grown by 2 degrees
on each side and clamped to the global limits, and that box again
satisfies `min ≤ max` on both axes and stays inside `[-90, 90]`
latitude and `[-180, 180]` longitude. -/
theorem expand_spatial_plus_two_clamped (it : Intent) (sf : SpatialFilter)
    (hsf : it.spatial_filter = some sf)
    (h1 : sf.min_lat ≤ sf.max_lat) (h2 : sf.min_lon ≤ sf.max_lon)
    (h3 : -90 ≤ sf.min_lat) (h4 : sf.max_lat ≤ 90)
    (h5 : -180 ≤ sf.min_lon) (h6 : sf.max_lon ≤ 180) :
    (expand_spatial_criteria it).spatial_filter = some
      { min_lat := max (sf.min_lat - 2) (-90)
        max_lat := min (sf.max_lat + 2) 90
        min_lon := max (sf.min_lon - 2) (-180)
        max_lon := min (sf.max_lon + 2) 180 } ∧
    max (sf.min_lat - 2) (-90) ≤ min (sf.max_lat + 2) 90 ∧
    max (sf.min_lon - 2) (-180) ≤ min (sf.max_lon + 2) 180 ∧
    (-90 : ℚ) ≤ max (sf.min_lat - 2) (-90) ∧
    min (sf.max_lat + 2) 90 ≤ 90 ∧
    (-180 : ℚ) ≤ max (sf.min_lon - 2) (-180) ∧
    min (sf.max_lon + 2) 180 ≤ 180 := by
  refine ⟨?_, ?_, ?_, le_max_right _ _, min_le_right _ _,
    le_max_right _ _, min_le_right _ _⟩
  · unfold expand_spatial_criteria
    rw [hsf]
  · rw [max_le_iff, le_min_iff, le_min_iff]
    constructor <;> constructor <;> linarith
  · rw [max_le_iff, le_min_iff, le_min_iff]
    constructor <;> constructor <;> linarith

/-- C8 (witness): the expansion theorem applied to the Arabian Sea
bounding box `(10, 25, 55, 75)` from the `parse_intent` regions table. -/
theorem expand_spatial_plus_two_clamped_witness :
    (expand_spatial_criteria
      { emptyMaskIntent with spatial_filter := some ⟨10, 25, 55, 75⟩ }
      ).spatial_filter = some
      { min_lat := max ((10 : ℚ) - 2) (-90)
        max_lat := min ((25 : ℚ) + 2) 90
        min_lon := max ((55 : ℚ) - 2) (-180)
        max_lon := min ((75 : ℚ) + 2) 180 } ∧
    max ((10 : ℚ) - 2) (-90) ≤ min ((25 : ℚ) + 2) 90 ∧
    max ((55 : ℚ) - 2) (-180) ≤ min ((75 : ℚ) + 2) 180 ∧
    (-90 : ℚ) ≤ max ((10 : ℚ) - 2) (-90) ∧
    min ((25 : ℚ) + 2) 90 ≤ 90 ∧
    (-180 : ℚ) ≤ max ((55 : ℚ) - 2) (-180) ∧
    min ((75 : ℚ) + 2) 180 ≤ 180 :=
  expand_spatial_plus_two_clamped
    { emptyMaskIntent with spatial_filter := some ⟨10, 25, 55, 75⟩ }
    ⟨10, 25, 55, 75⟩ rfl (by norm_num) (by norm_num) (by norm_num)
    (by norm_num) (by norm_num) (by norm_num)

end Cyclic

namespace Semantic

lemma l2norm_nonneg (v : Fin 384 → ℝ) : 0 ≤ l2norm v :=
  Real.sqrt_nonneg _

lemma rawEmbedding_congr (p : EmbParams) (q1 q2 : String)
    (hq : pyLower q1 = pyLower q2) :
    rawEmbedding p q1 = rawEmbedding p q2 := by
  unfold rawEmbedding seedOf
  rw [hq]

lemma l2norm_normalized (v : Fin 384 → ℝ) (hv : l2norm v ≠ 0) :
    l2norm (fun i => v i / l2norm v) = 1 := by
  have hn : 0 < l2norm v := lt_of_le_of_ne (l2norm_nonneg v) (Ne.symm hv)
  have hsum : (0 : ℝ) ≤ ∑ i, v i ^ 2 :=
    Finset.sum_nonneg (fun i _ => sq_nonneg _)
  have h1 : (∑ i, (v i / l2norm v) ^ 2) = (∑ i, v i ^ 2) / (l2norm v) ^ 2 := by
    rw [Finset.sum_div]
    congr 1
    funext i
    rw [div_pow]
  show Real.sqrt (∑ i, (v i / l2norm v) ^ 2) = 1
  rw [h1, Real.sqrt_div hsum, Real.sqrt_sq hn.le]
  show l2norm v / l2norm v = 1
  exact div_self hv

/-- C2: the embedding is a deterministic function of the lowercased
query — two queries equal after lowercasing yield identical embedding
vectors for every instantiation of the MD5 hash and of the seeded
normal sampler — and whenever the seeded draw is nonzero (the
`norm > 0` guard of the source) the returned embedding has Euclidean
norm exactly 1, in particular within `1e-6` of 1. -/
theorem semantic_embedding_deterministic_unit_norm (p : EmbParams)
    (q1 q2 : String) (hq : pyLower q1 = pyLower q2)
    (hnz : l2norm (rawEmbedding p q1) ≠ 0) :
    get_query_embedding p q1 = get_query_embedding p q2 ∧
    l2norm (get_query_embedding p q1) = 1 ∧
    |l2norm (get_query_embedding p q1) - 1| ≤ 1 / 1000000 := by
  have hraw := rawEmbedding_congr p q1 q2 hq
  have hn : 0 < l2norm (rawEmbedding p q1) :=
    lt_of_le_of_ne (l2norm_nonneg _) (Ne.symm hnz)
  have hemb : get_query_embedding p q1 =
      (fun i => rawEmbedding p q1 i / l2norm (rawEmbedding p q1)) := by
    unfold get_query_embedding
    rw [if_pos hn]
  have hnorm : l2norm (get_query_embedding p q1) = 1 := by
    rw [hemb]
    exact l2norm_normalized _ hnz
  refine ⟨?_, hnorm, ?_⟩
  · unfold get_query_embedding
    rw [hraw]
  · rw [hnorm]
    norm_num

/-- C2 (witness): the theorem applied to the queries `"Hello"` and
`"hello"` with the concrete test instantiation of the external
numerics, whose draw is the first standard basis vector. -/
theorem semantic_embedding_deterministic_unit_norm_witness :
    pyLower "Hello" = pyLower "hello" ∧
    l2norm (rawEmbedding testEmbParams "Hello") ≠ 0 ∧
    (get_query_embedding testEmbParams "Hello" =
      get_query_embedding testEmbParams "hello" ∧
    l2norm (get_query_embedding testEmbParams "Hello") = 1 ∧
    |l2norm (get_query_embedding testEmbParams "Hello") - 1| ≤
      1 / 1000000) := by
  have hq : pyLower "Hello" = pyLower "hello" := by decide
  have hnz : l2norm (rawEmbedding testEmbParams "Hello") ≠ 0 := by
    have hsum : (∑ i : Fin 384, (if i = 0 then (1 : ℝ) else 0) ^ 2) = 1 := by
      have h1 : ∀ i : Fin 384, (if i = 0 then (1 : ℝ) else 0) ^ 2 =
          if i = 0 then (1 : ℝ) else 0 := by
        intro i
        split <;> norm_num
      rw [Finset.sum_congr rfl (fun i _ => h1 i)]
      simp
    have : l2norm (rawEmbedding testEmbParams "Hello") = 1 := by
      unfold l2norm rawEmbedding testEmbParams
      rw [hsum, Real.sqrt_one]
    rw [this]
    norm_num
  exact ⟨hq, hnz,
    semantic_embedding_deterministic_unit_norm testEmbParams
      "Hello" "hello" hq hnz⟩

end Semantic

namespace Measurement

/-- C5 (amended): `MeasurementAgent.process` attaches no `statistics`
key when the returned measurement set is empty; for a non-empty set it
attaches `_calculate_stats` of the three *unfiltered* per-parameter
value lists; and `_calculate_stats` does **not** ignore NaN — as soon as
one value of the list is NaN, every statistic of that parameter (mean,
std, min, max, median) is NaN. -/
theorem measurement_statistics_behaviour :
    (∀ ms : List ArgoMeasurement, ms.isEmpty = true →
      process_measurements ms = { count := 0, statistics := none }) ∧
    (∀ ms : List ArgoMeasurement, ms.isEmpty = false →
      process_measurements ms =
        { count := ms.length
          statistics := some
            (calculate_stats (ms.map (fun m => m.temp_adjusted)),
             calculate_stats (ms.map (fun m => m.psal_adjusted)),
             calculate_stats (ms.map (fun m => m.pres_adjusted))) }) ∧
    (∀ vs : List PyFloat, vs.any PyFloat.isNaN = true →
      calculate_stats vs =
        some { mean := .nan, std_sq := .nan, minV := .nan, maxV := .nan
               median := .nan }) := by
  refine ⟨?_, ?_, ?_⟩
  · intro ms h
    simp [process_measurements, h]
  · intro ms h
    simp [process_measurements, h]
  · intro vs hnan
    cases vs with
    | nil => simp at hnan
    | cons a l =>
      simp [calculate_stats, npMean, npVarPop, npMin, npMax, npMedian, hnan]

/-- C5 (witness): the amended theorem applied to the empty set, to a
concrete one-row set, and to a value list containing one NaN. -/
theorem measurement_statistics_behaviour_witness :
    process_measurements [] = { count := 0, statistics := none } ∧
    process_measurements
      [{ platform_number := "1901740", latitude := .val 10
         longitude := .val 60, pres_adjusted := .val 5
         temp_adjusted := .nan, psal_adjusted := .val 35 }] =
      { count := 1
        statistics := some
          (calculate_stats [.nan], calculate_stats [.val 35],
           calculate_stats [.val 5]) } ∧
    calculate_stats [.nan, .val 1] =
      some { mean := .nan, std_sq := .nan, minV := .nan, maxV := .nan
             median := .nan } :=
  ⟨measurement_statistics_behaviour.1 [] rfl,
   measurement_statistics_behaviour.2.1 _ rfl,
   measurement_statistics_behaviour.2.2 [.nan, .val 1] rfl⟩

/-- C5 (counterexample to the claim as stated): over the concrete value
list `[NaN, 1.0]` the source statistics have NaN mean, whereas
statistics that ignore NaN values of the parameter — what the claim
states — have a non-NaN mean; the two statistics dicts differ. -/
theorem measurement_statistics_counterexample :
    (calculate_stats [.nan, .val 1]).map (fun st => st.mean.isNaN) =
      some true ∧
    (specCalculateStatsIgnoringNaN [.nan, .val 1]).map
      (fun st => st.mean.isNaN) = some false ∧
    calculate_stats [.nan, .val 1] ≠
      specCalculateStatsIgnoringNaN [.nan, .val 1] := by
  have h1 : (calculate_stats [.nan, .val 1]).map
      (fun st => st.mean.isNaN) = some true := by decide
  have h2 : (specCalculateStatsIgnoringNaN [.nan, .val 1]).map
      (fun st => st.mean.isNaN) = some false := by decide
  refine ⟨h1, h2, fun h => ?_⟩
  rw [h, h2] at h1
  simp at h1

end Measurement

namespace Classify

/-- C6 (amended): classification is a pure function of the query text
over the fixed pattern sets, and an ambiguous query — one matching none
of the main-agent redirect, conversational, previous-question or
oceanographic patterns (term list and 7-digit float-id regex) — is
answered with the fixed conversational fallback, i.e. it is **not**
routed to the multi-agent path. -/
theorem classify_ambiguous_falls_back (query : String)
    (hmain : mainAgentPatterns.any
      (fun p => strIn p (pyTrim (pyLower query))) = false)
    (hconv : conversational_patterns.any
      (fun p => strIn p (pyTrim (pyLower query))) = false)
    (hprev : previous_patterns.any
      (fun p => strIn p (pyTrim (pyLower query))) = false)
    (hocean : oceanographic_terms.any
      (fun t => strIn t (pyTrim (pyLower query))) = false)
    (hfid : hasSevenDigitId none (pyTrim (pyLower query)).data = false) :
    classify_query query = .fallbackConversational ∧
    (classify_query query).needsMultiAgent = false := by
  have hocean2 : ∀ t ∈ oceanographic_terms,
      ¬ strIn t (pyTrim (pyLower query)) = true := by
    rw [List.any_eq_false] at hocean
    exact hocean
  have hfil : oceanographic_terms.filter
      (fun t => strIn t (pyTrim (pyLower query))) = [] := by
    rw [List.filter_eq_nil_iff]
    exact hocean2
  have hdata : dataRequestTerms.any
      (fun t => strIn t (pyTrim (pyLower query))) = false := by
    rw [List.any_eq_false]
    intro t ht
    apply hocean2
    simp only [dataRequestTerms, List.mem_cons, List.not_mem_nil,
      or_false] at ht
    rcases ht with rfl | rfl | rfl | rfl | rfl <;> decide
  have hcq : classify_query query = .fallbackConversational := by
    simp [classify_query, hmain, hconv, hprev, hocean, hfil, hdata, hfid]
  exact ⟨hcq, by rw [hcq]; rfl⟩

/-- C6 (witness): the amended theorem applied to the concrete ambiguous
query `"xyzzy"`. -/
theorem classify_ambiguous_falls_back_witness :
    classify_query "xyzzy" = .fallbackConversational ∧
    (classify_query "xyzzy").needsMultiAgent = false :=
  classify_ambiguous_falls_back "xyzzy" (by decide) (by decide) (by decide)
    (by decide) (by decide)

/-- C6 (counterexample to the claim as stated): `"xyzzy"` matches none
of the conversational, previous-question, main-agent or oceanographic
patterns — it is ambiguous — yet `_classify_query` answers it
conversationally (`needs_multi_agent = false`) instead of routing it to
the oceanographic multi-agent path. -/
theorem classify_ambiguous_counterexample :
    mainAgentPatterns.any
      (fun p => strIn p (pyTrim (pyLower "xyzzy"))) = false ∧
    conversational_patterns.any
      (fun p => strIn p (pyTrim (pyLower "xyzzy"))) = false ∧
    previous_patterns.any
      (fun p => strIn p (pyTrim (pyLower "xyzzy"))) = false ∧
    oceanographic_terms.any
      (fun t => strIn t (pyTrim (pyLower "xyzzy"))) = false ∧
    hasSevenDigitId none (pyTrim (pyLower "xyzzy")).data = false ∧
    classify_query "xyzzy" ≠ .multiAgent ∧
    (classify_query "xyzzy").needsMultiAgent = false := by
  decide

end Classify

namespace RateLimit

lemma dropWhile_le_eq_filter (c : ℚ) :
    ∀ (l : List ℚ), l.Pairwise (· ≤ ·) →
      l.dropWhile (fun ts => decide (ts ≤ c)) =
      l.filter (fun ts => decide (c < ts))
  | [], _ => rfl
  | a :: l, h => by
    rcases List.pairwise_cons.mp h with ⟨ha, hl⟩
    rw [List.dropWhile_cons, List.filter_cons]
    by_cases hac : a ≤ c
    · rw [decide_eq_true hac, decide_eq_false (not_lt.mpr hac),
        if_pos rfl, if_neg Bool.false_ne_true]
      exact dropWhile_le_eq_filter c l hl
    · rw [decide_eq_false hac, decide_eq_true (not_le.mp hac),
        if_neg Bool.false_ne_true, if_pos rfl]
      have hfl : List.filter (fun ts => decide (c < ts)) l = l :=
        List.filter_eq_self.mpr
          (fun b hb => decide_eq_true
            (lt_of_lt_of_le (not_le.mp hac) (ha b hb)))
      rw [hfl]

lemma runRequests_window_invariant (calls : Nat) (period : ℚ)
    (hper : 0 < period) :
    ∀ (times : List ℚ) (tprev : ℚ) (adm : List ℚ),
      List.Chain (· ≤ ·) tprev times →
      adm.Pairwise (· ≤ ·) →
      (∀ s ∈ adm, s ≤ tprev) →
      (∀ x, windowCount period x adm ≤ calls) →
      ∀ x, windowCount period x
        (runRequests calls period
          (adm.filter (fun s => decide (tprev - period < s))) adm times) ≤
        calls := by
  intro times
  induction times with
  | nil =>
    intro tprev adm _ _ _ hbound x
    exact hbound x
  | cons t ts ih =>
    intro tprev adm hchain hpw hle hbound
    rcases hchain with _ | ⟨h1, h2⟩
    have hpwdq : (adm.filter
        (fun s => decide (tprev - period < s))).Pairwise (· ≤ ·) :=
      hpw.filter _
    have hdq2 : (adm.filter (fun s => decide (tprev - period < s))).dropWhile
        (fun ts => decide (ts ≤ t - period)) =
        adm.filter (fun s => decide (t - period < s)) := by
      rw [dropWhile_le_eq_filter (t - period) _ hpwdq, List.filter_filter]
      apply List.filter_congr
      intro s _
      by_cases hs : t - period < s
      · have : tprev - period < s := lt_of_le_of_lt (by linarith) hs
        simp [hs, this]
      · simp [hs]
    intro x
    simp only [runRequests, is_allowed]
    simp only [hdq2]
    by_cases hlen : (adm.filter (fun s => decide (t - period < s))).length <
        calls
    · rw [if_pos hlen]
      simp only
      have hstep : adm.filter (fun s => decide (t - period < s)) ++ [t] =
          (adm ++ [t]).filter (fun s => decide (t - period < s)) := by
        rw [List.filter_append]
        congr 1
        have : decide (t - period < t) = true := by
          simp only [decide_eq_true_eq]
          linarith
        simp [List.filter_cons, this, hper]
      rw [hstep]
      refine ih t (adm ++ [t]) h2 ?_ ?_ ?_ x
      · rw [List.pairwise_append]
        refine ⟨hpw, by simp, ?_⟩
        intro s hs y hy
        rw [List.mem_singleton] at hy
        subst hy
        exact le_trans (hle s hs) h1
      · intro s hs
        rcases List.mem_append.mp hs with hs | hs
        · exact le_trans (hle s hs) h1
        · rw [List.mem_singleton] at hs
          subst hs
          exact le_refl _
      · intro y
        unfold windowCount
        rw [List.countP_append]
        by_cases hw : y < t ∧ t ≤ y + period
        · have hcnt : (adm.countP
              (fun s => decide (y < s ∧ s ≤ y + period))) ≤
              (adm.countP (fun s => decide (t - period < s))) := by
            apply List.countP_mono_left
            intro s _ hws
            rw [decide_eq_true_eq] at hws ⊢
            have : t - period ≤ y := by linarith [hw.2]
            exact lt_of_le_of_lt this hws.1
          have hfl : (adm.countP (fun s => decide (t - period < s))) =
              (adm.filter (fun s => decide (t - period < s))).length :=
            List.countP_eq_length_filter _ _
          have hone : (List.countP
              (fun s => decide (y < s ∧ s ≤ y + period)) [t]) ≤ 1 := by
            simp only [List.countP_cons, List.countP_nil]
            split <;> omega
          omega
        · have hzero : (List.countP
              (fun s => decide (y < s ∧ s ≤ y + period)) [t]) = 0 := by
            simp only [List.countP_cons, List.countP_nil]
            rw [decide_eq_false hw]
            simp
          rw [hzero]
          have := hbound y
          unfold windowCount at this
          omega
    · rw [if_neg hlen]
      simp only
      refine ih t adm h2 hpw ?_ hbound x
      intro s hs
      exact le_trans (hle s hs) h1

lemma is_allowed_after_idle (calls : Nat) (period now : ℚ) (dq : List ℚ)
    (hcalls : 0 < calls) (hidle : ∀ ts ∈ dq, ts ≤ now - period) :
    (is_allowed calls period now dq).1 = true := by
  have h : dq.dropWhile (fun ts => decide (ts ≤ now - period)) = [] := by
    rw [List.dropWhile_eq_nil_iff]
    intro x hx
    simpa using hidle x hx
  simp only [is_allowed]
  rw [h]
  simp [hcalls]

/-- C9: for any client and any non-decreasing sequence of request
instants, every rolling window `(x, x + period]` contains at most
`calls` admitted requests (an admission records its timestamp, a
rejection records nothing); and whenever a full `period` has elapsed
past every recorded timestamp, the next request is admitted (for a
positive `calls` budget). -/
theorem rate_limiter_window_bound_and_recovery (calls : Nat) (period : ℚ)
    (times : List ℚ) (hper : 0 < period)
    (hchain : times.Chain' (· ≤ ·)) :
    (∀ x, windowCount period x (admittedTimes calls period times) ≤ calls) ∧
    (∀ (dq : List ℚ) (now : ℚ), 0 < calls →
      (∀ ts ∈ dq, ts ≤ now - period) →
      (is_allowed calls period now dq).1 = true) := by
  constructor
  · cases times with
    | nil =>
      intro x
      simp [admittedTimes, runRequests, windowCount]
    | cons t ts =>
      have hch : List.Chain (· ≤ ·) t (t :: ts) :=
        List.Chain.cons (le_refl t) hchain
      have := runRequests_window_invariant calls period hper (t :: ts) t []
        hch (List.Pairwise.nil) (by simp) (by
          intro x
          simp [windowCount])
      simpa [admittedTimes] using this
  · intro dq now hcalls hidle
    exact is_allowed_after_idle calls period now dq hcalls hidle

/-- C9 (witness): the theorem applied to `calls = 1`, `period = 10` and
the request instants `0, 5, 20` (the request at `5` is rejected, the
one at `20` is admitted again). -/
theorem rate_limiter_window_bound_and_recovery_witness :
    (0 : ℚ) < 10 ∧ List.Chain' (· ≤ ·) [(0 : ℚ), 5, 20] ∧
    ((∀ x, windowCount 10 x (admittedTimes 1 10 [(0 : ℚ), 5, 20]) ≤ 1) ∧
    (∀ (dq : List ℚ) (now : ℚ), 0 < 1 →
      (∀ ts ∈ dq, ts ≤ now - 10) →
      (is_allowed 1 10 now dq).1 = true)) := by
  have h1 : (0 : ℚ) < 10 := by norm_num
  have h2 : List.Chain' (· ≤ ·) [(0 : ℚ), 5, 20] := by
    refine List.Chain'.cons (by norm_num) ?_
    exact List.Chain'.cons (by norm_num) (List.chain'_singleton _)
  exact ⟨h1, h2,
    rate_limiter_window_bound_and_recovery 1 10 [0, 5, 20] h1 h2⟩

end RateLimit

namespace Session

lemma update_session_context_messages (s : ConversationSession)
    (msg : ConversationMessage) :
    (update_session_context s msg).messages = s.messages :=
  rfl

lemma update_session_context_last (s : ConversationSession)
    (msg : ConversationMessage) :
    (update_session_context s msg).last_activity = s.last_activity :=
  rfl

lemma findSession_storeSession (l : List (String × ConversationSession))
    (sid : String) (x : ConversationSession)
    (h : (findSession l sid).isSome) :
    findSession (storeSession l sid x) sid = some x := by
  induction l with
  | nil => simp [findSession] at h
  | cons p l ih =>
    by_cases hp : (p.1 == sid) = true
    · have hss : storeSession (p :: l) sid x =
          (sid, x) :: storeSession l sid x := by
        unfold storeSession
        rw [List.map_cons, if_pos hp]
      rw [hss]
      unfold findSession
      rw [List.find?_cons_of_pos
        (p := fun q : String × ConversationSession => q.1 == sid) _ (by simp)]
      rfl
    · have hss : storeSession (p :: l) sid x = p :: storeSession l sid x := by
        unfold storeSession
        rw [List.map_cons, if_neg hp]
      rw [hss]
      unfold findSession
      rw [List.find?_cons_of_neg
        (p := fun q : String × ConversationSession => q.1 == sid) _ hp]
      have h2 : (findSession l sid).isSome = true := by
        unfold findSession at h
        rw [List.find?_cons_of_neg
          (p := fun q : String × ConversationSession => q.1 == sid) _ hp] at h
        exact h
      exact ih h2

lemma takeLast_of_le {α : Type} (l : List α) (k : Nat) (h : l.length ≤ k) :
    takeLast l k = l := by
  unfold takeLast
  have h0 : l.length - k = 0 := by omega
  rw [h0, List.drop_zero]

lemma takeLast_length_le {α : Type} (l : List α) (k : Nat) :
    (takeLast l k).length ≤ k := by
  unfold takeLast
  rw [List.length_drop]
  omega

lemma takeLast_suffix {α : Type} (l : List α) (k : Nat) :
    takeLast l k <:+ l :=
  List.drop_suffix _ _

lemma takeLast_append_left {α : Type} (A B : List α) (k : Nat) :
    takeLast (takeLast A k ++ B) k = takeLast (A ++ B) k := by
  by_cases h : A.length ≤ k
  · rw [takeLast_of_le A k h]
  · have hj : A.length - k ≤ A.length := Nat.sub_le _ _
    unfold takeLast
    rw [← List.drop_append_of_le_length hj, List.drop_drop]
    congr 1
    simp only [List.length_drop, List.length_append]
    omega

lemma clip_eq_takeLast {α : Type} (l : List α) (k : Nat) (hk : 1 ≤ k) :
    (if l.length > k then pyLastSlice l k else l) = takeLast l k := by
  by_cases h : l.length > k
  · rw [if_pos h]
    unfold pyLastSlice
    rw [if_neg (by omega)]
    rfl
  · rw [if_neg h]
    exact (takeLast_of_le l k (by omega)).symm

lemma add_message_live (st : ManagerState) (now : ℚ)
    (mid sid role content : String) (s : ConversationSession)
    (hfind : findSession st.sessions sid = some s)
    (hnotexp : is_session_expired st.session_timeout now s = false) :
    ∃ s3 : ConversationSession,
      findSession ((add_message st now mid sid role content).2).sessions sid =
        some s3 ∧
      (add_message st now mid sid role content).1 =
        some (msgOfCall sid ⟨now, mid, role, content⟩) ∧
      ((add_message st now mid sid role content).2).session_timeout =
        st.session_timeout ∧
      ((add_message st now mid sid role content).2).max_messages_per_session =
        st.max_messages_per_session ∧
      s3.messages =
        (if (s.messages ++ [msgOfCall sid ⟨now, mid, role, content⟩]).length >
            st.max_messages_per_session
         then pyLastSlice
           (s.messages ++ [msgOfCall sid ⟨now, mid, role, content⟩])
           st.max_messages_per_session
         else s.messages ++ [msgOfCall sid ⟨now, mid, role, content⟩]) ∧
      s3.last_activity = now := by
  have hget : get_session st now sid =
      (some { s with last_activity := now },
       { st with sessions := storeSession st.sessions sid { s with last_activity := now } }) := by
    simp only [get_session, hfind]
    rw [if_neg (by rw [hnotexp]; exact Bool.false_ne_true)]
  simp only [add_message, hget]
  let u : ConversationSession := update_session_context
    { s with
      messages := s.messages ++ [(⟨mid, sid, now, role, content⟩ :
        ConversationMessage)]
      last_activity := now } ⟨mid, sid, now, role, content⟩
  have hu : u.messages = s.messages ++
      [(⟨mid, sid, now, role, content⟩ : ConversationMessage)] := rfl
  refine ⟨if u.messages.length > st.max_messages_per_session then { u with messages := pyLastSlice u.messages st.max_messages_per_session } else u,
    ?_, ?_, ?_, ?_, ?_, ?_⟩
  · exact findSession_storeSession _ _ _
      (by rw [findSession_storeSession st.sessions sid _ (by rw [hfind]; rfl)]
          rfl)
  · rfl
  · trivial
  · trivial
  · simp only [hu, msgOfCall]
    by_cases hC : (s.messages ++ [(⟨mid, sid, now, role, content⟩ :
        ConversationMessage)]).length > st.max_messages_per_session
    · rw [if_pos hC, if_pos hC]
    · rw [if_neg hC, if_neg hC]
      exact hu
  · split <;> rfl

lemma addAll_messages_aux (timeout : ℚ) (maxN : Nat) (hmax : 1 ≤ maxN)
    (sid : String) :
    ∀ (calls : List AddCall) (st : ManagerState) (s : ConversationSession),
      st.session_timeout = timeout →
      st.max_messages_per_session = maxN →
      findSession st.sessions sid = some s →
      List.Chain (fun a b => b - a ≤ timeout) s.last_activity
        (calls.map (fun c => c.now)) →
      s.messages.length ≤ maxN →
      ∃ s2, findSession (addAll st sid calls).sessions sid = some s2 ∧
        s2.messages =
          takeLast (s.messages ++ calls.map (msgOfCall sid)) maxN := by
  intro calls
  induction calls with
  | nil =>
    intro st s hto hmx hfind _ hlen
    refine ⟨s, hfind, ?_⟩
    rw [List.map_nil, List.append_nil, takeLast_of_le _ _ hlen]
  | cons c cs ih =>
    intro st s hto hmx hfind hchain hlen
    rcases hchain with _ | ⟨hgap, hchain'⟩
    have hnotexp : is_session_expired st.session_timeout c.now s = false := by
      unfold is_session_expired
      rw [hto]
      simp only [decide_eq_false_iff_not, not_lt]
      linarith
    obtain ⟨s3, hfind3, hres, hto3, hmx3, hmsg3, hlast3⟩ :=
      add_message_live st c.now c.mid sid c.role c.content s hfind hnotexp
    have hs3m : s3.messages =
        takeLast (s.messages ++ [msgOfCall sid c]) maxN := by
      rw [hmsg3, hmx]
      exact clip_eq_takeLast _ _ hmax
    have hs3len : s3.messages.length ≤ maxN := by
      rw [hs3m]
      exact takeLast_length_le _ _
    have haddAll : addAll st sid (c :: cs) =
        addAll (add_message st c.now c.mid sid c.role c.content).2 sid cs :=
      rfl
    obtain ⟨s2, hfind2, hmsg2⟩ :=
      ih (add_message st c.now c.mid sid c.role c.content).2 s3
        (by rw [hto3, hto]) (by rw [hmx3, hmx]) hfind3
        (by rw [hlast3]; exact hchain') hs3len
    refine ⟨s2, by rw [haddAll]; exact hfind2, ?_⟩
    rw [hmsg2, hs3m, takeLast_append_left]
    rw [List.map_cons, List.append_assoc]
    rfl

/-- C7: running any sequence of `add_message` calls against a freshly
created session, with each call arriving within `session_timeout` of the
previous activity (so that every call succeeds), leaves the session
holding exactly the last `max_messages_per_session` of the appended
messages, in append order: the length bound holds after every step, the
oldest messages are dropped, and the surviving messages are a suffix of
the full append sequence. -/
theorem session_history_bounded_and_ordered (timeout : ℚ) (maxN : Nat)
    (hmax : 1 ≤ maxN) (sid : String) (t0 : ℚ)
    (prefs : List (String × String)) (calls : List AddCall)
    (hgaps : List.Chain (fun a b => b - a ≤ timeout) t0
      (calls.map (fun c => c.now))) :
    ∃ s, findSession
        (addAll (create_session
          { session_timeout := timeout, max_messages_per_session := maxN
            sessions := [] } t0 sid prefs) sid calls).sessions sid = some s ∧
      s.messages = takeLast (calls.map (msgOfCall sid)) maxN ∧
      s.messages.length ≤ maxN ∧
      s.messages <:+ calls.map (msgOfCall sid) := by
  have hfind : findSession (create_session
      { session_timeout := timeout, max_messages_per_session := maxN
        sessions := [] } t0 sid prefs).sessions sid = some
      { session_id := sid, created_at := t0, last_activity := t0
        messages := [], context := emptyContext
        user_preferences := prefs } := by
    simp [create_session, findSession]
  obtain ⟨s2, hfind2, hmsg2⟩ :=
    addAll_messages_aux timeout maxN hmax sid calls _ _ rfl rfl hfind hgaps
      (by simp)
  refine ⟨s2, hfind2, ?_, ?_, ?_⟩
  · simpa using hmsg2
  · rw [hmsg2]
    simpa using takeLast_length_le (calls.map (msgOfCall sid)) maxN
  · rw [hmsg2]
    simpa using takeLast_suffix (calls.map (msgOfCall sid)) maxN

/-- C7 (witness): two calls against a fresh session with bound 1 — the
first message is dropped, the survivor is the second message, in append
order. -/
theorem session_history_bounded_and_ordered_witness :
    (1 : Nat) ≤ 1 ∧
    List.Chain (fun a b : ℚ => b - a ≤ 10) 0
      (([⟨1, "m1", "user", "a"⟩,
        ⟨2, "m2", "user", "b"⟩] : List AddCall).map (fun c => c.now)) ∧
    (∃ s, findSession
        (addAll (create_session
          { session_timeout := 10, max_messages_per_session := 1
            sessions := [] } 0 "s" []) "s"
          [⟨1, "m1", "user", "a"⟩, ⟨2, "m2", "user", "b"⟩]).sessions "s" =
        some s ∧
      s.messages = takeLast
        (([⟨1, "m1", "user", "a"⟩, ⟨2, "m2", "user", "b"⟩] :
          List AddCall).map (msgOfCall "s")) 1 ∧
      s.messages.length ≤ 1 ∧
      s.messages <:+
        (([⟨1, "m1", "user", "a"⟩, ⟨2, "m2", "user", "b"⟩] :
          List AddCall).map (msgOfCall "s"))) := by
  have h1 : (1 : Nat) ≤ 1 := le_refl 1
  have h2 : List.Chain (fun a b : ℚ => b - a ≤ 10) 0
      (([⟨1, "m1", "user", "a"⟩,
        ⟨2, "m2", "user", "b"⟩] : List AddCall).map (fun c => c.now)) := by
    refine List.Chain.cons (by norm_num) ?_
    exact List.Chain.cons (by norm_num) List.Chain.nil
  exact ⟨h1, h2,
    session_history_bounded_and_ordered 10 1 h1 "s" 0 []
      [⟨1, "m1", "user", "a"⟩, ⟨2, "m2", "user", "b"⟩] h2⟩

/-- C10: `add_message` with a session id absent from the store returns
`None` and leaves the store unchanged; `add_message` on a stored but
expired session returns `None` and the only state change is that the
expired session is evicted. -/
theorem add_message_absent_or_expired (st : ManagerState) (now : ℚ)
    (mid sid role content : String) :
    (findSession st.sessions sid = none →
      add_message st now mid sid role content = (none, st)) ∧
    (∀ s, findSession st.sessions sid = some s →
      is_session_expired st.session_timeout now s = true →
      add_message st now mid sid role content =
        (none, { st with sessions := eraseSession st.sessions sid })) := by
  constructor
  · intro hfind
    have hget : get_session st now sid = (none, st) := by
      unfold get_session
      rw [hfind]
    simp only [add_message, hget]
  · intro s hfind hexp
    have hget : get_session st now sid =
        (none, { st with sessions := eraseSession st.sessions sid }) := by
      simp only [get_session, hfind]
      rw [if_pos hexp]
    simp only [add_message, hget]

/-- C10 (witness): the theorem applied to the concrete store — an absent
id leaves the store unchanged, and an expired session (timeout 3600,
last activity 0, request at 4000) is evicted with no message added. -/
theorem add_message_absent_or_expired_witness :
    add_message testStore 4000 "m1" "nope" "user" "hi" = (none, testStore) ∧
    add_message testStore 4000 "m1" "sess-a" "user" "hi" =
      (none, { testStore with
        sessions := eraseSession testStore.sessions "sess-a" }) := by
  have h1 : findSession testStore.sessions "nope" = none := by decide
  have h2 : findSession testStore.sessions "sess-a" = some testSession := by
    decide
  have h3 : is_session_expired testStore.session_timeout 4000 testSession =
      true := by
    unfold is_session_expired testStore testSession
    norm_num
  exact ⟨(add_message_absent_or_expired testStore 4000 "m1" "nope" "user"
      "hi").1 h1,
    (add_message_absent_or_expired testStore 4000 "m1" "sess-a" "user"
      "hi").2 testSession h2 h3⟩

end Session

end Oceanus
